import Mathlib

/-
Verification development for the go-artisan database migration tool
(package `migration`, file migration.go, plus the CLI entry point).

Shallow embedding conventions:
  * Machine strings are modelled as Lean `String` / `List Char`; Go works on
    byte indices, the model on character indices.  The two coincide on ASCII
    content, and every marker and example in the spec is ASCII.
  * The SQL database is modelled as an explicit state `Db α`: the
    `migrations` ledger, the `migration_lock` row, table-existence flags and
    an abstract application-table state `α`.  Application SQL statements are
    interpreted by an oracle `exec : String → α → Option α` (`none` = the
    statement fails); DDL issued by the tool itself (CREATE TABLE IF NOT
    EXISTS and the ledger/lock reads and writes) is interpreted by the model
    directly.  Statements issued via Go's `Exec` are recorded in a trace
    (`SqlOp`); `Query`/`QueryRow` reads are not traced.
  * `database/sql` transactions are modelled by `Tx`: a pending snapshot next
    to the base state; `Commit` publishes the pending state, `Rollback`
    restores the base.
  * Console output (the `color.*` calls) is modelled as a list of plain
    strings without colour codes or glyphs; `fmt.Errorf` wrapping is not
    modelled, only the identity of the underlying error (inductive `MErr`).
-/

namespace Artisan

/-! ### Character/string primitives mirroring Go's `strings` package -/

/-- Go `strings.HasPrefix pat` on character lists: `goStartsWith pat s`
is true when `s` begins with `pat`. -/
def goStartsWith : List Char → List Char → Bool
  | [], _ => true
  | _ :: _, [] => false
  | p :: ps, c :: cs => p == c && goStartsWith ps cs

/-- Helper for `goIndex`: first position `≥ i` at which `pat` occurs. -/
def goIndexAux (pat : List Char) : List Char → Nat → Option Nat
  | [], i =>
    match pat with
    | [] => some i
    | _ :: _ => none
  | c :: cs, i =>
    if goStartsWith pat (c :: cs) then some i else goIndexAux pat cs (i + 1)

/-- Go `strings.Index s pat`: position of the first occurrence of `pat` in
`s`, `none` standing for Go's `-1`. -/
def goIndex (pat s : List Char) : Option Nat :=
  goIndexAux pat s 0

/-- Go slice expression `s[a:b]`.  Go panics (`slice bounds out of range`)
unless `a ≤ b ≤ len(s)`; the panic is modelled by `none`. -/
def goSlice (s : List Char) (a b : Nat) : Option (List Char) :=
  if a ≤ b ∧ b ≤ s.length then some ((s.drop a).take (b - a)) else none

/-- The ASCII white-space test underlying Go's `strings.TrimSpace`
(`unicode.IsSpace` restricted to ASCII: space, \t, \n, \r, \v, \f). -/
def isGoSpace (c : Char) : Bool :=
  c == ' ' || c == '\t' || c == '\n' || c == '\r' || c.toNat == 11 || c.toNat == 12

/-- Go `strings.TrimSpace` on character lists. -/
def goTrim (s : List Char) : List Char :=
  ((s.dropWhile isGoSpace).reverse.dropWhile isGoSpace).reverse

/-- Go `strings.Split s ";"`: split on every semicolon, keeping empty
fragments (`"a;;"` gives `["a", "", ""]`). -/
def goSplitSemi : List Char → List (List Char)
  | [] => [[]]
  | c :: cs =>
    let r := goSplitSemi cs
    if c = ';' then [] :: r
    else
      match r with
      | [] => [[c]]
      | g :: gs => (c :: g) :: gs

/-- The tail of `parseMigrationSQL`: trim the section, split on `;`, trim
each fragment, drop fragments that are empty or begin with `--`. -/
def cleanStatements (sql : List Char) : List String :=
  (((goSplitSemi (goTrim sql)).map goTrim).filter
      (fun t => !t.isEmpty && !goStartsWith ("--".toList) t)).map
    (fun t => String.mk t)

/-! ### Error and result types -/

/-- The error conditions surfaced by the migration engine.  `fmt.Errorf`
context strings are not modelled; each constructor stands for one
distinguishable failure of the Go code.  `sliceBound` models a Go *runtime
panic* (`slice bounds out of range`), not a returned `error` value.
`sqlError` is a failing SQL statement ("failed to run/rollback migration
..."), `recordFailed` the ledger INSERT inside the migration transaction
failing ("failed to record migration ..."). -/
inductive MErr where
  | missingMarkers
  | sliceBound
  | noSuchTable
  | lockCheckFailed
  | alreadyRunning
  | sqlError (context : String)
  | recordFailed (name : String)
deriving DecidableEq

/-- Go's `(value, error)` pair: either a value or an error. -/
inductive MRes (β : Type) where
  | ok (v : β)
  | err (e : MErr)
deriving DecidableEq

/-- Translation of `parseMigrationSQL` (migration.go lines 695–740).
`content` is the file's text; `isUp` selects the `--UP--` section (text
strictly between the markers) or the `--DOWN--` section (text after the
marker).  `len("--UP--") = 6`, `len("--DOWN--") = 8`. -/
def parseMigrationSQL (content : String) (isUp : Bool) : MRes (List String) :=
  let text := content.toList
  let upIndex := goIndex ("--UP--".toList) text
  let downIndex := goIndex ("--DOWN--".toList) text
  match upIndex, downIndex with
  | some ui, some di =>
    let sl := if isUp then goSlice text (ui + 6) di else goSlice text (di + 8) text.length
    match sl with
    | none => .err .sliceBound
    | some sql => .ok (cleanStatements sql)
  | _, _ => .err .missingMarkers

/-- Collapse every run of two or more spaces to a single space: the fixpoint
of the Go loop `for strings.Contains(sql, "  ") { ReplaceAll "  " " " }`
in `truncateSQL`. -/
def squeezeSpaces : List Char → List Char
  | [] => []
  | [c] => [c]
  | c :: d :: rest =>
    if c = ' ' && d = ' ' then squeezeSpaces (d :: rest)
    else c :: squeezeSpaces (d :: rest)

/-- Translation of `truncateSQL` (migration.go lines 632–646): trim, map
newlines and tabs to spaces, collapse double spaces, truncate with an
ellipsis when longer than `maxLen`. -/
def truncateSQL (sql : String) (maxLen : Nat) : String :=
  let s0 := goTrim sql.toList
  let s1 := s0.map (fun c => if c == '\n' then ' ' else if c == '\t' then ' ' else c)
  let s2 := squeezeSpaces s1
  if maxLen < s2.length then String.mk (s2.take maxLen) ++ "..." else String.mk s2

/-! ### Database model -/

/-- One row of the `migrations` ledger table: `(id, migration, batch)`.
The `created_at` column is never read by the engine and is not modelled. -/
structure MigRow where
  id : Nat
  name : String
  batch : Nat
deriving DecidableEq

/-- The single `migration_lock` row (`id = 1`): `locked`, whether
`locked_at` is non-NULL, and the `locked_by` value. -/
structure LockRow where
  locked : Bool
  lockedAt : Bool
  lockedBy : Option String
deriving DecidableEq

/-- The database state seen by the tool: existence flags for the two
bookkeeping tables, the ledger rows with the auto-increment counter,
the lock row (`none` = zero rows in `migration_lock`), and the abstract
application-table state `α`. -/
structure Db (α : Type) where
  migExists : Bool
  ledger : List MigRow
  nextId : Nat
  lockExists : Bool
  lockRow : Option LockRow
  app : α
deriving DecidableEq

/-- One SQL statement issued through Go's `Exec` (reads via
`Query`/`QueryRow` are not recorded). -/
inductive SqlOp where
  | createMigrationsTable
  | createLockTable
  | insertLockRow
  | lockAcquire
  | lockRelease
  | insertMigration (name : String) (batch : Nat)
  | deleteMigration (name : String)
  | stmtExec (s : String)
deriving DecidableEq

/-- The schema-ensuring statements issued by `EnsureMigrationsTable`. -/
def isSchemaOp : SqlOp → Bool
  | .createMigrationsTable => true
  | .createLockTable => true
  | .insertLockRow => true
  | _ => false

/-- Writes to the `migrations` ledger. -/
def isLedgerWrite : SqlOp → Bool
  | .insertMigration _ _ => true
  | .deleteMigration _ => true
  | _ => false

/-- The result of one engine entry point: the returned error value, the
database afterwards, the `Exec`-trace, and the console lines printed. -/
structure MRun (α : Type) where
  res : MRes Unit
  db : Db α
  trace : List SqlOp
  console : List String
deriving DecidableEq

/-! ### Ledger and lock operations (migration.go lines 39–163, 301–407) -/

/-- Translation of `ensureLockTable` (lines 82–133): create
`migration_lock` if absent, then insert the initial unlocked row when the
table holds zero rows.  The DDL/insert statements themselves are assumed
to succeed (driver errors on them are not modelled). -/
def ensureLockTable (db : Db α) : Db α × List SqlOp :=
  let db1 := { db with lockExists := true }
  match db1.lockRow with
  | some _ => (db1, [SqlOp.createLockTable])
  | none => ({ db1 with lockRow := some ⟨false, false, none⟩ },
             [SqlOp.createLockTable, SqlOp.insertLockRow])

/-- Translation of `EnsureMigrationsTable` (lines 39–80): create the
`migrations` table if absent, then ensure the lock table. -/
def EnsureMigrationsTable (db : Db α) : Db α × List SqlOp :=
  let db1 := { db with migExists := true }
  let r := ensureLockTable db1
  (r.1, SqlOp.createMigrationsTable :: r.2)

/-- Translation of `acquireLock` (lines 135–155): read `locked` from the
row with `id = 1` (a failing read — table or row missing — surfaces as
`lockCheckFailed`); refuse with the distinguishable `alreadyRunning`
error when set; otherwise set `locked = 1` with timestamp and owner. -/
def acquireLock (db : Db α) : MRes Unit × Db α × List SqlOp :=
  if db.lockExists then
    match db.lockRow with
    | none => (.err .lockCheckFailed, db, [])
    | some l =>
      if l.locked then (.err .alreadyRunning, db, [])
      else (.ok (), { db with lockRow := some ⟨true, true, some "go-artisan"⟩ },
            [SqlOp.lockAcquire])
  else (.err .lockCheckFailed, db, [])

/-- Translation of `releaseLock` (lines 157–163): unconditionally clear
`locked`, `locked_at` and `locked_by` on the row with `id = 1`.  An
UPDATE matching zero rows is not an error in SQL, so a missing row is
accepted; a missing table is a driver error. -/
def releaseLock (db : Db α) : MRes Unit × Db α × List SqlOp :=
  if db.lockExists then
    match db.lockRow with
    | none => (.ok (), db, [SqlOp.lockRelease])
    | some _ => (.ok (), { db with lockRow := some ⟨false, false, none⟩ },
                 [SqlOp.lockRelease])
  else (.err .noSuchTable, db, [])

/-- Translation of `getMigrated` (lines 301–318): all `migration` values
currently recorded. -/
def getMigrated (db : Db α) : MRes (List String) :=
  if db.migExists then .ok (db.ledger.map (fun r => r.name)) else .err .noSuchTable

/-- SQL `MAX(batch)` over the ledger rows; `none` models the NULL that
`MAX` yields on an empty table. -/
def maxBatch : List MigRow → Option Nat
  | [] => none
  | r :: rs =>
    match maxBatch rs with
    | none => some r.batch
    | some m => some (Nat.max r.batch m)

/-- Translation of `getNextBatch` (lines 326–338): `MAX(batch)+1`, or `1`
when `MAX` is NULL. -/
def getNextBatch (db : Db α) : MRes Nat :=
  if db.migExists then
    match maxBatch db.ledger with
    | none => .ok 1
    | some b => .ok (b + 1)
  else .err .noSuchTable

/-- Translation of `getLastBatch` (lines 340–352): `MAX(batch)`, or `0`
when `MAX` is NULL. -/
def getLastBatch (db : Db α) : MRes Nat :=
  if db.migExists then
    match maxBatch db.ledger with
    | none => .ok 0
    | some b => .ok b
  else .err .noSuchTable

/-- Insert a row keeping the list ordered by descending `id` (the order
`ORDER BY id DESC` produces, independent of physical row order). -/
def insertByIdDesc (r : MigRow) : List MigRow → List MigRow
  | [] => [r]
  | x :: xs => if x.id ≤ r.id then r :: x :: xs else x :: insertByIdDesc r xs

/-- Sort rows by descending `id`. -/
def sortByIdDesc (l : List MigRow) : List MigRow :=
  l.foldr insertByIdDesc []

/-- Translation of `getBatchMigrations` (lines 358–376): the names
recorded under `batch`, `ORDER BY id DESC`. -/
def getBatchMigrations (batch : Nat) (db : Db α) : MRes (List String) :=
  if db.migExists then
    .ok ((sortByIdDesc (db.ledger.filter (fun r => r.batch == batch))).map
          (fun r => r.name))
  else .err .noSuchTable

/-- Translation of `deleteMigration` (lines 378–382): delete every ledger
row whose `migration` equals `name`. -/
def deleteMigration (name : String) (db : Db α) : MRes Unit × Db α × List SqlOp :=
  if db.migExists then
    (.ok (), { db with ledger := db.ledger.filter (fun r => !(r.name == name)) },
     [SqlOp.deleteMigration name])
  else (.err .noSuchTable, db, [])

/-- Go helper `contains` (lines 478–485). -/
def contains (slice : List String) (item : String) : Bool :=
  slice.any (fun s => s == item)

/-! ### Filesystem model -/

/-- Character-wise lexicographic `<` on strings (byte order coincides with
code-point order for UTF-8, so this matches Go's `sort.Strings`). -/
def strLtChars : List Char → List Char → Bool
  | [], [] => false
  | [], _ :: _ => true
  | _ :: _, [] => false
  | a :: as, b :: bs =>
    if a.toNat < b.toNat then true
    else if b.toNat < a.toNat then false
    else strLtChars as bs

/-- `a ≤ b` on strings, as `¬ (b < a)`. -/
def strLe (a b : String) : Bool :=
  !strLtChars b.toList a.toList

/-- Insertion step of the lexicographic sort on `(name, content)` pairs. -/
def insertFile (p : String × String) : List (String × String) → List (String × String)
  | [] => [p]
  | q :: qs => if strLe p.1 q.1 then p :: q :: qs else q :: insertFile p qs

/-- Lexicographic sort of directory entries by file name. -/
def sortFiles (l : List (String × String)) : List (String × String) :=
  l.foldr insertFile []

/-- Translation of `getMigrationFiles` (lines 384–407).  The directory is
modelled as a list of `(name, content)` pairs; hidden files, `registry.go`
and `.go` files are skipped and the rest sorted.  Go sorts the joined
paths `dir/name` and later takes `filepath.Base`; with one fixed directory
prefix that order equals sorting the base names. -/
def getMigrationFiles (fs : List (String × String)) : List (String × String) :=
  sortFiles (fs.filter
    (fun p => !(p.1.startsWith "." || p.1 == "registry.go" || p.1.endsWith ".go")))

/-- `os.Stat` + read during rollback: the content of the file named
`name`, or `none` when it does not exist. -/
def lookupFile (fs : List (String × String)) (name : String) : Option String :=
  (fs.find? (fun p => p.1 == name)).map (fun p => p.2)

/-! ### Transactions (`database/sql` semantics) -/

/-- An open transaction: `base` is the state restored by `Rollback`,
`pending` the state seen and modified inside the transaction and
published by `Commit`. -/
structure Tx (α : Type) where
  base : Db α
  pending : Db α

/-- `DB.Begin()`. -/
def txBegin (db : Db α) : Tx α :=
  ⟨db, db⟩

/-- `tx.Exec(stmt)` for an application statement, interpreted by the
oracle `exec`; `none` = the statement fails. -/
def txExecStmt (exec : String → α → Option α) (s : String) (tx : Tx α) : Option (Tx α) :=
  (exec s tx.pending.app).map
    (fun a => { tx with pending := { tx.pending with app := a } })

/-- `tx.Exec(INSERT INTO migrations ...)` inside the transaction. -/
def txInsertMigration (name : String) (batch : Nat) (tx : Tx α) : Tx α :=
  { tx with pending :=
     { tx.pending with
        ledger := tx.pending.ledger ++ [⟨tx.pending.nextId, name, batch⟩],
        nextId := tx.pending.nextId + 1 } }

/-- `tx.Commit()`. -/
def txCommit (tx : Tx α) : Db α :=
  tx.pending

/-- `tx.Rollback()`. -/
def txRollback (tx : Tx α) : Db α :=
  tx.base

/-- The statement loop of `Migrate` inside the transaction (migration.go
lines 212–220): skip empty statements, stop at the first failure.
Returns the success flag, the transaction reached, and the `Exec` trace. -/
def txRunStmts (exec : String → α → Option α) :
    List String → Tx α → Bool × Tx α × List SqlOp
  | [], tx => (true, tx, [])
  | s :: rest, tx =>
    if s == "" then txRunStmts exec rest tx
    else
      match txExecStmt exec s tx with
      | none => (false, tx, [SqlOp.stmtExec s])
      | some tx1 =>
        let r := txRunStmts exec rest tx1
        (r.1, r.2.1, SqlOp.stmtExec s :: r.2.2)

/-- Reference sequential semantics of a statement list on the application
state alone (empty statements skipped). -/
def execAll (exec : String → α → Option α) : List String → α → Option α
  | [], a => some a
  | s :: rest, a =>
    if s == "" then execAll exec rest a
    else
      match exec s a with
      | none => none
      | some a1 => execAll exec rest a1

/-- The per-file transactional body of `Migrate`/`AutoMigrate`
(migration.go lines 205–232): begin, run the UP statements, record the
ledger row inside the same transaction, commit; `tx.Rollback()` on the
failure of any statement (lines 216–219) *or* of the ledger INSERT
itself (lines 224–227).  Whether `tx.Exec(INSERT ...)` succeeds for
`(name, batch)` is decided by the oracle `ins` (a driver-level failure
such as a lost connection or full disk); the attempted INSERT is traced
either way, its effect only on success. -/
def applyFile (exec : String → α → Option α) (ins : String → Nat → Bool)
    (name : String) (batch : Nat) (stmts : List String) (db : Db α) :
    MRes Unit × Db α × List SqlOp :=
  let tx0 := txBegin db
  match txRunStmts exec stmts tx0 with
  | (false, tx1, t) => (.err (.sqlError name), txRollback tx1, t)
  | (true, tx1, t) =>
    if ins name batch then
      let tx2 := txInsertMigration name batch tx1
      (.ok (), txCommit tx2, t ++ [SqlOp.insertMigration name batch])
    else
      (.err (.recordFailed name), txRollback tx1,
       t ++ [SqlOp.insertMigration name batch])

/-- Direct (non-transactional) execution of a statement list, as in
`Rollback` (lines 282–289): each statement applies immediately, so on a
failure the effects of the earlier statements remain. -/
def runStmtsDirect (exec : String → α → Option α) :
    List String → α → Bool × α × List SqlOp
  | [], a => (true, a, [])
  | s :: rest, a =>
    if s == "" then runStmtsDirect exec rest a
    else
      match exec s a with
      | none => (false, a, [SqlOp.stmtExec s])
      | some a1 =>
        let r := runStmtsDirect exec rest a1
        (r.1, r.2.1, SqlOp.stmtExec s :: r.2.2)

/-! ### Engine entry points -/

/-- Result of the per-run file loop: error value, database, `Exec` trace,
console lines, and the `executed` counter. -/
structure LoopOut (α : Type) where
  res : MRes Unit
  db : Db α
  trace : List SqlOp
  console : List String
  count : Nat
deriving DecidableEq

/-- The file loop of `Migrate` (lines 192–236): skip applied names, parse
the UP section, apply the file transactionally, print a green line per
migrated file, stop the run at the first error. -/
def migrateLoop (exec : String → α → Option α) (ins : String → Nat → Bool)
    (migrated : List String) (batch : Nat) :
    List (String × String) → Db α → LoopOut α
  | [], db => ⟨.ok (), db, [], [], 0⟩
  | (name, content) :: rest, db =>
    if contains migrated name then migrateLoop exec ins migrated batch rest db
    else
      match parseMigrationSQL content true with
      | .err e => ⟨.err e, db, [], [], 0⟩
      | .ok stmts =>
        match applyFile exec ins name batch stmts db with
        | (.err e, db1, t) => ⟨.err e, db1, t, [], 0⟩
        | (.ok _, db1, t) =>
          let r := migrateLoop exec ins migrated batch rest db1
          ⟨r.res, r.db, t ++ r.trace, ("Migrated: " ++ name) :: r.console, r.count + 1⟩

/-- The file loop of `AutoMigrate` (lines 525–567): identical control flow
to `migrateLoop` but with no console output. -/
def autoMigrateLoop (exec : String → α → Option α) (ins : String → Nat → Bool)
    (migrated : List String) (batch : Nat) :
    List (String × String) → Db α → LoopOut α
  | [], db => ⟨.ok (), db, [], [], 0⟩
  | (name, content) :: rest, db =>
    if contains migrated name then autoMigrateLoop exec ins migrated batch rest db
    else
      match parseMigrationSQL content true with
      | .err e => ⟨.err e, db, [], [], 0⟩
      | .ok stmts =>
        match applyFile exec ins name batch stmts db with
        | (.err e, db1, t) => ⟨.err e, db1, t, [], 0⟩
        | (.ok _, db1, t) =>
          let r := autoMigrateLoop exec ins migrated batch rest db1
          ⟨r.res, r.db, t ++ r.trace, [], r.count + 1⟩

/-- Translation of `Migrate` (lines 165–243): ensure schema, acquire the
lock (failing fast), read the applied set and next batch, run the file
loop, release the lock on every path after acquisition (`defer`; its own
error is discarded), and print `Nothing to migrate.` when no file ran. -/
def Migrate (exec : String → α → Option α) (ins : String → Nat → Bool)
    (fs : List (String × String)) (db : Db α) : MRun α :=
  let e1 := EnsureMigrationsTable db
  match acquireLock e1.1 with
  | (.err e, db2, t2) => ⟨.err e, db2, e1.2 ++ t2, []⟩
  | (.ok _, db2, t2) =>
    match getMigrated db2 with
    | .err e =>
      let rel := releaseLock db2
      ⟨.err e, rel.2.1, e1.2 ++ t2 ++ rel.2.2, []⟩
    | .ok migrated =>
      match getNextBatch db2 with
      | .err e =>
        let rel := releaseLock db2
        ⟨.err e, rel.2.1, e1.2 ++ t2 ++ rel.2.2, []⟩
      | .ok batch =>
        let files := getMigrationFiles fs
        let r := migrateLoop exec ins migrated batch files db2
        let rel := releaseLock r.db
        ⟨r.res, rel.2.1, e1.2 ++ t2 ++ r.trace ++ rel.2.2,
          r.console ++
            (match r.res, r.count with
             | .ok _, 0 => ["Nothing to migrate."]
             | _, _ => [])⟩

/-- Translation of `AutoMigrate` (lines 498–570): the silent variant of
`Migrate` — same control flow, no console output. -/
def AutoMigrate (exec : String → α → Option α) (ins : String → Nat → Bool)
    (fs : List (String × String)) (db : Db α) : MRun α :=
  let e1 := EnsureMigrationsTable db
  match acquireLock e1.1 with
  | (.err e, db2, t2) => ⟨.err e, db2, e1.2 ++ t2, []⟩
  | (.ok _, db2, t2) =>
    match getMigrated db2 with
    | .err e =>
      let rel := releaseLock db2
      ⟨.err e, rel.2.1, e1.2 ++ t2 ++ rel.2.2, []⟩
    | .ok migrated =>
      match getNextBatch db2 with
      | .err e =>
        let rel := releaseLock db2
        ⟨.err e, rel.2.1, e1.2 ++ t2 ++ rel.2.2, []⟩
      | .ok batch =>
        let files := getMigrationFiles fs
        let r := autoMigrateLoop exec ins migrated batch files db2
        let rel := releaseLock r.db
        ⟨r.res, rel.2.1, e1.2 ++ t2 ++ r.trace ++ rel.2.2, []⟩

/-- The warning line printed when a batch member's file is missing. -/
def fileWarn (name : String) : String :=
  "Migration file not found, removing record: " ++ name

/-- The body of `Rollback`'s reverse loop (lines 261–296), processing the
given names in list order.  A missing file is tolerated: its ledger row
is deleted and the loop continues.  Otherwise the DOWN statements run
non-transactionally (partial effects remain on failure) and the ledger
row is deleted on full success. -/
def rollbackLoop (exec : String → α → Option α) (fs : List (String × String)) :
    List String → Db α → MRun α
  | [], db => ⟨.ok (), db, [], []⟩
  | name :: rest, db =>
    match lookupFile fs name with
    | none =>
      match deleteMigration name db with
      | (.err e, db1, t) => ⟨.err e, db1, t, [fileWarn name]⟩
      | (.ok _, db1, t) =>
        let r := rollbackLoop exec fs rest db1
        ⟨r.res, r.db, t ++ r.trace, fileWarn name :: r.console⟩
    | some content =>
      match parseMigrationSQL content false with
      | .err e => ⟨.err e, db, [], []⟩
      | .ok stmts =>
        let s := runStmtsDirect exec stmts db.app
        if s.1 then
          match deleteMigration name { db with app := s.2.1 } with
          | (.err e, db1, t) => ⟨.err e, db1, s.2.2 ++ t, []⟩
          | (.ok _, db1, t) =>
            let r := rollbackLoop exec fs rest db1
            ⟨r.res, r.db, s.2.2 ++ t ++ r.trace, ("Rolled back: " ++ name) :: r.console⟩
        else ⟨.err (.sqlError name), { db with app := s.2.1 }, s.2.2, []⟩

/-- Translation of `Rollback` (lines 245–299): find the last batch (0 =
nothing to roll back, a reported no-op), fetch its names `ORDER BY id
DESC`, and iterate that list from its last element to its first (the Go
loop `for i := len(files)-1; i >= 0; i--`), modelled as `List.reverse`
followed by a forward loop. -/
def Rollback (exec : String → α → Option α) (fs : List (String × String))
    (db : Db α) : MRun α :=
  match getLastBatch db with
  | .err e => ⟨.err e, db, [], []⟩
  | .ok batch =>
    if batch == 0 then ⟨.ok (), db, [], ["Nothing to rollback."]⟩
    else
      match getBatchMigrations batch db with
      | .err e => ⟨.err e, db, [], []⟩
      | .ok files => rollbackLoop exec fs files.reverse db

/-- One `Statement N: <preview>` console line per non-empty statement; the
index advances on skipped empty statements too, mirroring the Go
`for i, stmt := range statements` loop of `DryRun`. -/
def dryStmtLines (i : Nat) : List String → List String
  | [] => []
  | s :: rest =>
    if s == "" then dryStmtLines (i + 1) rest
    else ("Statement " ++ toString (i + 1) ++ ": " ++ truncateSQL s 80) ::
         dryStmtLines (i + 1) rest

/-- The report loop of `DryRun` (lines 601–621): same skip/parse logic as
the migrate loop, but only console lines — nothing executes and no state
is threaded.  Returns the error value, the lines, and the pending count. -/
def dryLoop (migrated : List String) (batch : Nat) :
    List (String × String) → MRes Unit × List String × Nat
  | [] => (.ok (), [], 0)
  | (name, content) :: rest =>
    if contains migrated name then dryLoop migrated batch rest
    else
      match parseMigrationSQL content true with
      | .err e => (.err e, [], 0)
      | .ok stmts =>
        let r := dryLoop migrated batch rest
        (r.1, ("Would migrate: " ++ name ++ " (Batch " ++ toString batch ++ ")") ::
                (dryStmtLines 0 stmts ++ r.2.1),
         r.2.2 + 1)

/-- Translation of `DryRun` (lines 578–630): ensure schema, then the same
discovery and applied-name diff as `Migrate`, but only report — no lock,
no transactions, no statement execution. -/
def DryRun (fs : List (String × String)) (db : Db α) : MRun α :=
  let e1 := EnsureMigrationsTable db
  match getMigrated e1.1 with
  | .err e => ⟨.err e, e1.1, e1.2, []⟩
  | .ok migrated =>
    match getNextBatch e1.1 with
    | .err e => ⟨.err e, e1.1, e1.2, []⟩
    | .ok batch =>
      let files := getMigrationFiles fs
      let r := dryLoop migrated batch files
      ⟨r.1, e1.1, e1.2,
        "=== Dry Run - No changes will be made ===" ::
          (r.2.1 ++
            (match r.1, r.2.2 with
             | .ok _, 0 => ["No pending migrations."]
             | .ok _, n => ["Total pending migrations: " ++ toString n]
             | _, _ => []))⟩

/-- Modelled from the spec: the body of `MigrateFile` is not under `src/`
— only its caller `handleMigrate` (`m.MigrateFile(specificPath)`) and the
README's description are.  Spec §4.4: "`MigrateFile` / targeted apply of
one explicit path bypasses ledger filtering and batch bookkeeping
entirely — runs UP statements against the database without recording a
ledger row."  `name`/`content` stand for the explicit path and the file it
denotes. -/
def MigrateFile (exec : String → α → Option α) (name content : String)
    (db : Db α) : MRun α :=
  match parseMigrationSQL content true with
  | .err e => ⟨.err e, db, [], []⟩
  | .ok stmts =>
    let s := runStmtsDirect exec stmts db.app
    if s.1 then ⟨.ok (), { db with app := s.2.1 }, s.2.2, ["Migrated: " ++ name]⟩
    else ⟨.err (.sqlError name), { db with app := s.2.1 }, s.2.2, []⟩

/-! ### Helper lemmas -/

/-- A prefix is no longer than the string it starts. -/
theorem goStartsWith_length : ∀ (pat s : List Char),
    goStartsWith pat s = true → pat.length ≤ s.length := by
  intro pat
  induction pat with
  | nil => intro s _; simp
  | cons p ps ih =>
    intro s h
    cases s with
    | nil => simp [goStartsWith] at h
    | cons c cs =>
      simp only [goStartsWith, Bool.and_eq_true] at h
      simpa [Nat.succ_le_succ_iff] using ih cs h.2

/-- A match found by `goIndexAux` lies inside the searched suffix. -/
theorem goIndexAux_bound (pat : List Char) : ∀ (s : List Char) (i k : Nat),
    goIndexAux pat s i = some k → k + pat.length ≤ i + s.length := by
  intro s
  induction s with
  | nil =>
    intro i k h
    cases pat with
    | nil => simp [goIndexAux] at h; omega
    | cons p ps => simp [goIndexAux] at h
  | cons c cs ih =>
    intro i k h
    unfold goIndexAux at h
    by_cases hs : goStartsWith pat (c :: cs) = true
    · rw [if_pos hs] at h
      have hlen : pat.length ≤ cs.length + 1 := by
        simpa using goStartsWith_length pat (c :: cs) hs
      simp at h
      simp [← h, List.length_cons]
      omega
    · rw [if_neg hs] at h
      have := ih (i + 1) k h
      simp [List.length_cons]
      omega

/-- A match found by `goIndex` fits inside the string: the index plus the
pattern length is at most the string length. -/
theorem goIndex_bound {pat s : List Char} {k : Nat}
    (h : goIndex pat s = some k) : k + pat.length ≤ s.length := by
  simpa using goIndexAux_bound pat s 0 k h

/-- `MAX(batch)` is NULL exactly on an empty ledger. -/
theorem maxBatch_eq_none : ∀ (l : List MigRow), maxBatch l = none ↔ l = [] := by
  intro l
  cases l with
  | nil => simp [maxBatch]
  | cons r rs =>
    simp only [maxBatch]
    cases maxBatch rs <;> simp

/-- `maxBatch` computes a maximum: it is attained by some row and bounds
every row. -/
theorem maxBatch_spec : ∀ (l : List MigRow) (b : Nat), maxBatch l = some b →
    (∃ r ∈ l, r.batch = b) ∧ ∀ r ∈ l, r.batch ≤ b := by
  intro l
  induction l with
  | nil => intro b h; simp [maxBatch] at h
  | cons r rs ih =>
    intro b h
    unfold maxBatch at h
    cases hm : maxBatch rs with
    | none =>
      rw [hm] at h
      simp at h
      have hrs : rs = [] := (maxBatch_eq_none rs).mp hm
      subst hrs
      constructor
      · exact ⟨r, by simp, by omega⟩
      · intro r0 h0
        simp at h0
        subst h0
        omega
    | some m =>
      rw [hm] at h
      have h2 := Option.some.inj h
      obtain ⟨⟨r0, hr0, hb0⟩, hub⟩ := ih m hm
      rcases Nat.le_total r.batch m with hc | hc
      · have hb : b = m := by
          have hx : r.batch.max m = m := Nat.max_eq_right hc
          rw [← h2, hx]
        subst hb
        constructor
        · exact ⟨r0, by simp [hr0], hb0⟩
        · intro r1 h1
          simp at h1
          rcases h1 with h1 | h1
          · subst h1; exact hc
          · exact hub r1 h1
      · have hb : b = r.batch := by
          have hx : r.batch.max m = r.batch := Nat.max_eq_left hc
          rw [← h2, hx]
        subst hb
        constructor
        · exact ⟨r, by simp, rfl⟩
        · intro r1 h1
          simp at h1
          rcases h1 with h1 | h1
          · subst h1; exact Nat.le.refl
          · have := hub r1 h1; omega

/-! ### Claim theorems -/

/-- C6 (counterexample): the claim quantifies over *every* file containing
both markers, but a file in which `--DOWN--` precedes `--UP--` contains
both markers and `parseMigrationSQL` does not return the split fragments
for it — extracting the UP section panics (modelled by `sliceBound`). -/
theorem parse_both_markers_counterexample :
    goIndex ("--UP--".toList) ("--DOWN--\nX;\n--UP--\nY;".toList) = some 12 ∧
    goIndex ("--DOWN--".toList) ("--DOWN--\nX;\n--UP--\nY;".toList) = some 0 ∧
    parseMigrationSQL "--DOWN--\nX;\n--UP--\nY;" true = .err .sliceBound := by
  refine ⟨by decide, by decide, by decide⟩

/-- C6 (amended): for every file containing both markers in which the
first `--UP--` marker ends at or before the first `--DOWN--` marker
begins (`ui + 6 ≤ di`), `parseMigrationSQL` returns the `;`-split,
whitespace-trimmed fragments of the text between `--UP--` and `--DOWN--`
(for UP) or after `--DOWN--` (for DOWN), in file order, with empty
fragments and fragments beginning with `--` discarded
(`cleanStatements`). -/
theorem parse_sections_when_up_before_down (content : String) (ui di : Nat)
    (hu : goIndex ("--UP--".toList) content.toList = some ui)
    (hd : goIndex ("--DOWN--".toList) content.toList = some di)
    (hord : ui + 6 ≤ di) :
    parseMigrationSQL content true =
      .ok (cleanStatements ((content.toList.drop (ui + 6)).take (di - (ui + 6)))) ∧
    parseMigrationSQL content false =
      .ok (cleanStatements (content.toList.drop (di + 8))) := by
  have hdb : di + 8 ≤ content.toList.length := by
    simpa using goIndex_bound hd
  constructor
  · have hsl : goSlice content.toList (ui + 6) di =
        some ((content.toList.drop (ui + 6)).take (di - (ui + 6))) := by
      unfold goSlice
      rw [if_pos]
      exact ⟨hord, by omega⟩
    simp only [parseMigrationSQL]
    rw [hu, hd]
    simp only [String.toList, String.length] at hsl
    simp [hsl]
  · have hsl : goSlice content.toList (di + 8) content.toList.length =
        some (content.toList.drop (di + 8)) := by
      unfold goSlice
      rw [if_pos ⟨hdb, Nat.le.refl⟩]
      congr 1
      rw [← List.length_drop]
      exact List.take_length _
    simp only [parseMigrationSQL]
    rw [hu, hd]
    simp at hsl
    simp [hsl]

/-- C6 (witness): the spec's round-trip example, obtained from the amended
theorem at the concrete input. -/
theorem parse_sections_when_up_before_down_witness :
    parseMigrationSQL "--UP--\nA;\nB;\n--DOWN--\nC;" true = .ok ["A", "B"] ∧
    parseMigrationSQL "--UP--\nA;\nB;\n--DOWN--\nC;" false = .ok ["C"] := by
  have h := parse_sections_when_up_before_down "--UP--\nA;\nB;\n--DOWN--\nC;" 0 13
    (by decide) (by decide) (by decide)
  exact ⟨h.1.trans (by decide), h.2.trans (by decide)⟩

/-- C10: on every file containing both markers in which the first
`--DOWN--` precedes the first `--UP--`, extracting the UP section
evaluates the Go slice `text[upIndex+6 : downIndex]` with start greater
than end, so `parseMigrationSQL` panics (`sliceBound`, a runtime panic)
instead of returning an error value. -/
theorem parse_down_before_up_slice_bound (content : String) (ui di : Nat)
    (hu : goIndex ("--UP--".toList) content.toList = some ui)
    (hd : goIndex ("--DOWN--".toList) content.toList = some di)
    (hlt : di < ui) :
    parseMigrationSQL content true = .err .sliceBound := by
  have hsl : goSlice content.toList (ui + 6) di = none := by
    unfold goSlice
    rw [if_neg]
    intro hcon
    omega
  simp only [parseMigrationSQL]
  rw [hu, hd]
  simp only [String.toList, String.length] at hsl
  simp [hsl]

/-- C10 (witness): a concrete file whose `--DOWN--` section comes first
panics on UP extraction. -/
theorem parse_down_before_up_slice_bound_witness :
    goIndex ("--DOWN--".toList) ("--DOWN--\nC;\n--UP--\nA;".toList) = some 0 ∧
    parseMigrationSQL "--DOWN--\nC;\n--UP--\nA;" true = .err .sliceBound :=
  ⟨by decide,
   parse_down_before_up_slice_bound "--DOWN--\nC;\n--UP--\nA;" 12 0
     (by decide) (by decide) (by decide)⟩

/-- The transactional statement loop preserves the rollback base and every
pending field except the application state, which it advances exactly as
the sequential semantics `execAll` does; the success flag matches
`execAll` succeeding. -/
theorem txRunStmts_spec (exec : String → α → Option α) :
    ∀ (stmts : List String) (tx : Tx α),
      (txRunStmts exec stmts tx).2.1.base = tx.base ∧
      (txRunStmts exec stmts tx).2.1.pending =
        { tx.pending with app := (txRunStmts exec stmts tx).2.1.pending.app } ∧
      ((txRunStmts exec stmts tx).1 = true →
        execAll exec stmts tx.pending.app =
          some (txRunStmts exec stmts tx).2.1.pending.app) ∧
      ((txRunStmts exec stmts tx).1 = false →
        execAll exec stmts tx.pending.app = none) := by
  intro stmts
  induction stmts with
  | nil =>
    intro tx
    refine ⟨rfl, rfl, fun _ => rfl, fun h => by simp [txRunStmts] at h⟩
  | cons st rest ih =>
    intro tx
    by_cases hs : (st == "") = true
    · simpa [txRunStmts, execAll, hs] using ih tx
    · cases he : exec st tx.pending.app with
      | none =>
        refine ⟨by simp [txRunStmts, hs, txExecStmt, he],
                by simp [txRunStmts, hs, txExecStmt, he],
                ?_, ?_⟩
        · intro hflag
          simp [txRunStmts, hs, txExecStmt, he] at hflag
        · intro _
          simp [execAll, hs, he]
      | some a1 =>
        have ihx := ih { tx with pending := { tx.pending with app := a1 } }
        refine ⟨?_, ?_, ?_, ?_⟩
        · simpa [txRunStmts, hs, txExecStmt, he] using ihx.1
        · simpa [txRunStmts, hs, txExecStmt, he] using ihx.2.1
        · intro hflag
          simp only [txRunStmts, hs, txExecStmt, he] at hflag ⊢
          simp only [execAll, hs, he]
          simpa using ihx.2.2.1 (by simpa using hflag)
        · intro hflag
          simp only [txRunStmts, hs, txExecStmt, he] at hflag ⊢
          simp only [execAll, hs, he]
          simpa using ihx.2.2.2 (by simpa using hflag)

/-- C2: for every migration file processed by the `Migrate` loop (whose
per-file body is `applyFile`), if any UP statement fails *or the ledger
INSERT fails*, the open transaction is rolled back — the database
(application tables *and* ledger) is left exactly as before the file, so
neither the statement effects nor the ledger row are committed; if all
statements and the INSERT succeed, the statement effects and the ledger
row `(name, batch)` commit together in the one transaction. -/
theorem migrate_per_file_atomicity (exec : String → α → Option α)
    (ins : String → Nat → Bool)
    (name : String) (batch : Nat) (stmts : List String) (db : Db α) :
    (execAll exec stmts db.app = none →
       (applyFile exec ins name batch stmts db).1 = .err (.sqlError name) ∧
       (applyFile exec ins name batch stmts db).2.1 = db) ∧
    (∀ a1, execAll exec stmts db.app = some a1 → ins name batch = false →
       (applyFile exec ins name batch stmts db).1 = .err (.recordFailed name) ∧
       (applyFile exec ins name batch stmts db).2.1 = db) ∧
    (∀ a1, execAll exec stmts db.app = some a1 → ins name batch = true →
       (applyFile exec ins name batch stmts db).1 = .ok () ∧
       (applyFile exec ins name batch stmts db).2.1 =
         { db with app := a1,
                   ledger := db.ledger ++ [⟨db.nextId, name, batch⟩],
                   nextId := db.nextId + 1 }) := by
  have spec := txRunStmts_spec exec stmts (txBegin db)
  rcases hR : txRunStmts exec stmts (txBegin db) with ⟨flag, tx1, t⟩
  rw [hR] at spec
  simp only [txBegin] at spec
  cases flag with
  | false =>
    refine ⟨?_, ?_, ?_⟩
    · intro _
      constructor
      · simp [applyFile, hR]
      · simp [applyFile, hR, txRollback, spec.1]
    · intro a1 h1 _
      have := spec.2.2.2 rfl
      rw [this] at h1
      exact absurd h1 (by simp)
    · intro a1 h1 _
      have := spec.2.2.2 rfl
      rw [this] at h1
      exact absurd h1 (by simp)
  | true =>
    refine ⟨?_, ?_, ?_⟩
    · intro h0
      have := spec.2.2.1 rfl
      rw [this] at h0
      exact absurd h0 (by simp)
    · intro a1 h1 hI
      constructor
      · simp [applyFile, hR, hI]
      · simp [applyFile, hR, hI, txRollback, spec.1]
    · intro a1 h1 hI
      have happ := spec.2.2.1 rfl
      rw [happ] at h1
      have ha : tx1.pending.app = a1 := by
        exact (Option.some.inj h1)
      constructor
      · simp [applyFile, hR, hI]
      · simp only [applyFile, hR, hI, if_true, txInsertMigration, txCommit]
        rw [spec.2.1]
        simp [ha]

/-- C2 (witness): a two-statement file whose second statement fails leaves
the database unchanged; a file whose statements succeed but whose ledger
INSERT fails also leaves the database unchanged (with the distinct
`recordFailed` error); a fully succeeding file commits the statement
effect and the ledger row together. -/
theorem migrate_per_file_atomicity_witness :
    (execAll (fun s (l : List String) => if s == "BAD" then none else some (l ++ [s]))
        ["CREATE t1", "BAD"] [] = none ∧
     (applyFile (fun s (l : List String) => if s == "BAD" then none else some (l ++ [s]))
        (fun _ _ => true) "f" 1 ["CREATE t1", "BAD"]
        ⟨true, [], 1, true, some ⟨false, false, none⟩, []⟩).2.1 =
       ⟨true, [], 1, true, some ⟨false, false, none⟩, []⟩) ∧
    (execAll (fun s (l : List String) => if s == "BAD" then none else some (l ++ [s]))
        ["CREATE t1"] [] = some ["CREATE t1"] ∧
     (applyFile (fun s (l : List String) => if s == "BAD" then none else some (l ++ [s]))
        (fun _ _ => false) "f" 1 ["CREATE t1"]
        ⟨true, [], 1, true, some ⟨false, false, none⟩, []⟩).1 =
       .err (.recordFailed "f") ∧
     (applyFile (fun s (l : List String) => if s == "BAD" then none else some (l ++ [s]))
        (fun _ _ => false) "f" 1 ["CREATE t1"]
        ⟨true, [], 1, true, some ⟨false, false, none⟩, []⟩).2.1 =
       ⟨true, [], 1, true, some ⟨false, false, none⟩, []⟩) ∧
    (applyFile (fun s (l : List String) => if s == "BAD" then none else some (l ++ [s]))
        (fun _ _ => true) "f" 1 ["CREATE t1"]
        ⟨true, [], 1, true, some ⟨false, false, none⟩, []⟩).2.1 =
      ⟨true, [⟨1, "f", 1⟩], 2, true, some ⟨false, false, none⟩, ["CREATE t1"]⟩ := by
  refine ⟨?_, ?_, ?_⟩
  · exact ⟨by decide,
      ((migrate_per_file_atomicity _ (fun _ _ => true) "f" 1 ["CREATE t1", "BAD"]
          ⟨true, [], 1, true, some ⟨false, false, none⟩, []⟩).1 (by decide)).2⟩
  · have h := (migrate_per_file_atomicity
        (fun s (l : List String) => if s == "BAD" then none else some (l ++ [s]))
        (fun _ _ => false) "f" 1 ["CREATE t1"]
        ⟨true, [], 1, true, some ⟨false, false, none⟩, []⟩).2.1
        ["CREATE t1"] (by decide) rfl
    exact ⟨by decide, h.1, h.2⟩
  · have h := ((migrate_per_file_atomicity
        (fun s (l : List String) => if s == "BAD" then none else some (l ++ [s]))
        (fun _ _ => true) "f" 1 ["CREATE t1"]
        ⟨true, [], 1, true, some ⟨false, false, none⟩, []⟩).2.2
        ["CREATE t1"] (by decide) rfl).2
    exact h.trans (by decide)

/-- C5: with the ledger table present, `getNextBatch` returns `MAX(batch)+1`
(`1` on an empty ledger) and `getLastBatch` returns `MAX(batch)` (`0` when
empty) — `maxBatch` is certified as the maximum by the membership and
upper-bound conjuncts — and whenever `getLastBatch` reports `0`, `Rollback`
succeeds as a no-op: no DOWN statement executes, no ledger row is deleted,
the database is untouched. -/
theorem batch_bookkeeping (exec : String → α → Option α)
    (fs : List (String × String)) (db : Db α) (hm : db.migExists = true) :
    (db.ledger = [] → getNextBatch db = .ok 1 ∧ getLastBatch db = .ok 0) ∧
    (∀ b, maxBatch db.ledger = some b →
       getNextBatch db = .ok (b + 1) ∧ getLastBatch db = .ok b ∧
       (∃ r ∈ db.ledger, r.batch = b) ∧ (∀ r ∈ db.ledger, r.batch ≤ b)) ∧
    (getLastBatch db = .ok 0 →
       Rollback exec fs db = ⟨.ok (), db, [], ["Nothing to rollback."]⟩) := by
  refine ⟨?_, ?_, ?_⟩
  · intro h
    simp [getNextBatch, getLastBatch, hm, h, maxBatch]
  · intro b hb
    have hc := maxBatch_spec db.ledger b hb
    exact ⟨by simp [getNextBatch, hm, hb], by simp [getLastBatch, hm, hb],
           hc.1, hc.2⟩
  · intro h
    simp [Rollback, h]

/-- C5 (witness): a ledger with highest batch 2 yields next batch 3 and
last batch 2; an empty ledger makes `Rollback` a reported no-op. -/
theorem batch_bookkeeping_witness :
    getNextBatch (⟨true, [⟨1, "m", 2⟩], 2, true, some ⟨false, false, none⟩, ()⟩ : Db Unit) =
      .ok 3 ∧
    getLastBatch (⟨true, [⟨1, "m", 2⟩], 2, true, some ⟨false, false, none⟩, ()⟩ : Db Unit) =
      .ok 2 ∧
    Rollback (fun _ u => some u) []
        (⟨true, [], 1, true, some ⟨false, false, none⟩, ()⟩ : Db Unit) =
      ⟨.ok (), ⟨true, [], 1, true, some ⟨false, false, none⟩, ()⟩, [],
       ["Nothing to rollback."]⟩ := by
  refine ⟨?_, ?_, ?_⟩
  · exact (((batch_bookkeeping (fun _ u => some u) []
      (⟨true, [⟨1, "m", 2⟩], 2, true, some ⟨false, false, none⟩, ()⟩ : Db Unit)
      rfl).2.1) 2 (by decide)).1
  · exact (((batch_bookkeeping (fun _ u => some u) []
      (⟨true, [⟨1, "m", 2⟩], 2, true, some ⟨false, false, none⟩, ()⟩ : Db Unit)
      rfl).2.1) 2 (by decide)).2.1
  · exact ((batch_bookkeeping (fun _ u => some u) []
      (⟨true, [], 1, true, some ⟨false, false, none⟩, ()⟩ : Db Unit)
      rfl).2.2) (by decide)

/-- C7: with the lock row present, a locked row makes `acquireLock` fail
with the distinguishable `alreadyRunning` error and leave the row (and
the whole database) unmodified; after `releaseLock` — an unconditional
clear — a subsequent `acquireLock` succeeds and marks the row locked with
a timestamp and the owner `go-artisan`. -/
theorem lock_exclusion_and_reacquire (db : Db α) (l : LockRow)
    (hE : db.lockExists = true) (hRow : db.lockRow = some l) :
    (l.locked = true → acquireLock db = (.err .alreadyRunning, db, [])) ∧
    (releaseLock db).2.1.lockRow = some ⟨false, false, none⟩ ∧
    acquireLock (releaseLock db).2.1 =
      (.ok (), { (releaseLock db).2.1 with lockRow := some ⟨true, true, some "go-artisan"⟩ },
       [SqlOp.lockAcquire]) := by
  refine ⟨?_, ?_, ?_⟩
  · intro hl
    simp [acquireLock, hE, hRow, hl]
  · simp [releaseLock, hE, hRow]
  · simp [releaseLock, hE, hRow, acquireLock]

/-- C7 (witness): the concrete locked state refuses a second acquire and
accepts one after release. -/
theorem lock_exclusion_and_reacquire_witness :
    acquireLock (⟨true, [], 1, true, some ⟨true, true, some "go-artisan"⟩, ()⟩ : Db Unit) =
      (.err .alreadyRunning,
       ⟨true, [], 1, true, some ⟨true, true, some "go-artisan"⟩, ()⟩, []) ∧
    acquireLock (releaseLock
        (⟨true, [], 1, true, some ⟨true, true, some "go-artisan"⟩, ()⟩ : Db Unit)).2.1 =
      (.ok (), ⟨true, [], 1, true, some ⟨true, true, some "go-artisan"⟩, ()⟩,
       [SqlOp.lockAcquire]) := by
  constructor
  · exact (lock_exclusion_and_reacquire
      (⟨true, [], 1, true, some ⟨true, true, some "go-artisan"⟩, ()⟩ : Db Unit)
      ⟨true, true, some "go-artisan"⟩ rfl rfl).1 rfl
  · exact ((lock_exclusion_and_reacquire
      (⟨true, [], 1, true, some ⟨true, true, some "go-artisan"⟩, ()⟩ : Db Unit)
      ⟨true, true, some "go-artisan"⟩ rfl rfl).2.2).trans (by decide)

/-- C8: during the rollback loop, a batch member whose file is absent is
not an error: its ledger rows are deleted (the only SQL executed for it
is the DELETE — no DOWN statement), a warning is reported, and the loop
continues with the remaining members. -/
theorem rollback_missing_file_tolerated (exec : String → α → Option α)
    (fs : List (String × String)) (name : String) (rest : List String)
    (db : Db α) (hf : lookupFile fs name = none) (hm : db.migExists = true) :
    rollbackLoop exec fs (name :: rest) db =
      (let db1 := { db with ledger := db.ledger.filter (fun r => !(r.name == name)) }
       let r := rollbackLoop exec fs rest db1
       ⟨r.res, r.db, SqlOp.deleteMigration name :: r.trace,
        fileWarn name :: r.console⟩) := by
  simp [rollbackLoop, hf, deleteMigration, hm]

/-- C8 (witness): rolling back a recorded name with no corresponding file
deletes the ledger row without error. -/
theorem rollback_missing_file_tolerated_witness :
    lookupFile ([] : List (String × String)) "ghost" = none ∧
    rollbackLoop (fun _ u => some u) [] ["ghost"]
        (⟨true, [⟨1, "ghost", 1⟩], 2, true, some ⟨false, false, none⟩, ()⟩ : Db Unit) =
      ⟨.ok (), ⟨true, [], 2, true, some ⟨false, false, none⟩, ()⟩,
       [SqlOp.deleteMigration "ghost"],
       [fileWarn "ghost"]⟩ := by
  refine ⟨rfl, ?_⟩
  exact (rollback_missing_file_tolerated (fun _ u => some u) [] "ghost" []
    (⟨true, [⟨1, "ghost", 1⟩], 2, true, some ⟨false, false, none⟩, ()⟩ : Db Unit)
    rfl rfl).trans (by decide)

/-- Direct statement execution issues only plain statement `Exec`s — in
particular no ledger INSERT or DELETE. -/
theorem runStmtsDirect_trace (exec : String → α → Option α) :
    ∀ (stmts : List String) (a : α),
      ((runStmtsDirect exec stmts a).2.2).all (fun op => !isLedgerWrite op) = true := by
  intro stmts
  induction stmts with
  | nil => intro a; simp [runStmtsDirect]
  | cons st rest ih =>
    intro a
    by_cases hs : (st == "") = true
    · simpa [runStmtsDirect, hs] using ih a
    · cases he : exec st a with
      | none => simp [runStmtsDirect, hs, he, isLedgerWrite]
      | some a1 =>
        simp [runStmtsDirect, hs, he, isLedgerWrite]
        simpa using ih a1

/-- C4: `MigrateFile` parses the one file's UP statements and executes
them against the database without consulting the applied-name set — its
result does not depend on the ledger contents at all — without assigning
a batch number, and without writing the ledger: the ledger passes through
unchanged and the trace contains no ledger write. -/
theorem migrateFile_bypasses_ledger (exec : String → α → Option α)
    (name content : String) (db : Db α) (L : List MigRow) :
    (MigrateFile exec name content db).db.ledger = db.ledger ∧
    ((MigrateFile exec name content db).trace.all (fun op => !isLedgerWrite op)) = true ∧
    (MigrateFile exec name content { db with ledger := L }).res =
      (MigrateFile exec name content db).res ∧
    (MigrateFile exec name content { db with ledger := L }).trace =
      (MigrateFile exec name content db).trace ∧
    (MigrateFile exec name content { db with ledger := L }).db.app =
      (MigrateFile exec name content db).db.app ∧
    (∀ stmts, parseMigrationSQL content true = .ok stmts →
       (MigrateFile exec name content db).db.app =
         (runStmtsDirect exec stmts db.app).2.1) := by
  cases hp : parseMigrationSQL content true with
  | err e =>
    refine ⟨by simp [MigrateFile, hp], by simp [MigrateFile, hp],
            by simp [MigrateFile, hp], by simp [MigrateFile, hp],
            by simp [MigrateFile, hp], ?_⟩
    intro stmts h
    exact absurd h (by simp)
  | ok stmts =>
    cases hflag : (runStmtsDirect exec stmts db.app).1 with
    | false =>
      refine ⟨by simp [MigrateFile, hp, hflag], ?_,
              by simp [MigrateFile, hp, hflag],
              by simp [MigrateFile, hp, hflag],
              by simp [MigrateFile, hp, hflag], ?_⟩
      · simpa [MigrateFile, hp, hflag] using runStmtsDirect_trace exec stmts db.app
      · intro stmts1 h
        have hst : stmts = stmts1 := MRes.ok.inj h
        subst hst
        simp [MigrateFile, hp, hflag]
    | true =>
      refine ⟨by simp [MigrateFile, hp, hflag], ?_,
              by simp [MigrateFile, hp, hflag],
              by simp [MigrateFile, hp, hflag],
              by simp [MigrateFile, hp, hflag], ?_⟩
      · simpa [MigrateFile, hp, hflag] using runStmtsDirect_trace exec stmts db.app
      · intro stmts1 h
        have hst : stmts = stmts1 := MRes.ok.inj h
        subst hst
        simp [MigrateFile, hp, hflag]

/-- C4 (witness): a concrete file applied through `MigrateFile` runs its
UP statement and leaves the ledger alone. -/
theorem migrateFile_bypasses_ledger_witness :
    parseMigrationSQL "--UP--\nA;\n--DOWN--\nB;" true = .ok ["A"] ∧
    (MigrateFile (fun st (l : List String) => some (l ++ [st])) "f"
        "--UP--\nA;\n--DOWN--\nB;"
        (⟨true, [⟨1, "old", 1⟩], 2, true, some ⟨false, false, none⟩, []⟩ : Db (List String))).db.app =
      (runStmtsDirect (fun st (l : List String) => some (l ++ [st])) ["A"]
        [] ).2.1 := by
  refine ⟨by decide, ?_⟩
  exact (migrateFile_bypasses_ledger (fun st (l : List String) => some (l ++ [st])) "f"
    "--UP--\nA;\n--DOWN--\nB;"
    (⟨true, [⟨1, "old", 1⟩], 2, true, some ⟨false, false, none⟩, []⟩ : Db (List String))
    []).2.2.2.2.2 ["A"] (by decide)

/-- `EnsureMigrationsTable` marks both tables present, initializes the
lock row when the lock table held no row, and issues only schema
statements. -/
theorem ensure_schema_spec (db : Db α) :
    (EnsureMigrationsTable db).1 =
      { db with migExists := true, lockExists := true,
                lockRow := some (db.lockRow.getD ⟨false, false, none⟩) } ∧
    ((EnsureMigrationsTable db).2).all isSchemaOp = true := by
  cases h : db.lockRow with
  | none =>
    constructor
    · simp [EnsureMigrationsTable, ensureLockTable, h]
    · simp [EnsureMigrationsTable, ensureLockTable, h, isSchemaOp]
  | some l =>
    constructor
    · simp [EnsureMigrationsTable, ensureLockTable, h]
    · simp [EnsureMigrationsTable, ensureLockTable, h, isSchemaOp]

/-- C3 (counterexample): on a database where the bookkeeping tables do not
exist yet, `DryRun` does *not* leave all tables unchanged and does *not*
issue zero SQL executions — it creates both tables and inserts the
initial lock row. -/
theorem dryRun_not_pure_counterexample :
    (DryRun ([] : List (String × String))
        (⟨false, [], 1, false, none, ()⟩ : Db Unit)).db ≠
      (⟨false, [], 1, false, none, ()⟩ : Db Unit) ∧
    (DryRun ([] : List (String × String))
        (⟨false, [], 1, false, none, ()⟩ : Db Unit)).trace =
      [SqlOp.createMigrationsTable, SqlOp.createLockTable, SqlOp.insertLockRow] := by
  refine ⟨by decide, by decide⟩

/-- C3 (amended): `DryRun` performs the same discovery and applied-name
diff as `Migrate` but executes none of the migration statements, writes
no ledger row and never touches the lock: the only SQL it issues is the
schema-ensuring of `EnsureMigrationsTable` (which may create the two
bookkeeping tables and insert the initial lock row), the ledger and
application tables always pass through unchanged, and on any database
where the tables already exist and the lock row is present the whole
database is left unchanged. -/
theorem dryRun_schema_only (fs : List (String × String)) (db : Db α) :
    (DryRun fs db).db =
      { db with migExists := true, lockExists := true,
                lockRow := some (db.lockRow.getD ⟨false, false, none⟩) } ∧
    ((DryRun fs db).trace).all isSchemaOp = true ∧
    (db.migExists = true → db.lockExists = true → ∀ l, db.lockRow = some l →
       (DryRun fs db).db = db) := by
  obtain ⟨me, led, nid, le, lr, app⟩ := db
  have hdb : (DryRun fs ⟨me, led, nid, le, lr, app⟩).db =
        ⟨true, led, nid, true, some (lr.getD ⟨false, false, none⟩), app⟩ ∧
      ((DryRun fs ⟨me, led, nid, le, lr, app⟩).trace).all isSchemaOp = true := by
    cases lr <;> cases hmb : maxBatch led <;>
      simp [DryRun, EnsureMigrationsTable, ensureLockTable, getMigrated,
            getNextBatch, hmb, isSchemaOp]
  refine ⟨hdb.1, hdb.2, ?_⟩
  intro hm hl l hrow
  simp only at hm hl hrow
  subst hm
  subst hl
  subst hrow
  rw [hdb.1]
  simp

/-- C3 (amended, witness): on an initialized database the dry run changes
nothing. -/
theorem dryRun_schema_only_witness :
    (⟨true, [], 1, true, some ⟨false, false, none⟩, ()⟩ : Db Unit).migExists = true ∧
    (DryRun [("a", "--UP--\nA;\n--DOWN--\nB;")]
        (⟨true, [], 1, true, some ⟨false, false, none⟩, ()⟩ : Db Unit)).db =
      (⟨true, [], 1, true, some ⟨false, false, none⟩, ()⟩ : Db Unit) :=
  ⟨rfl,
   (dryRun_schema_only [("a", "--UP--\nA;\n--DOWN--\nB;")]
       (⟨true, [], 1, true, some ⟨false, false, none⟩, ()⟩ : Db Unit)).2.2
     rfl rfl ⟨false, false, none⟩ rfl⟩

/-- The silent file loop is the printing file loop with its console
discarded: same result, same database, same trace, same counter. -/
theorem autoMigrateLoop_eq_migrateLoop (exec : String → α → Option α)
    (ins : String → Nat → Bool) (migrated : List String) (batch : Nat) :
    ∀ (files : List (String × String)) (db : Db α),
      autoMigrateLoop exec ins migrated batch files db =
        { migrateLoop exec ins migrated batch files db with console := [] } := by
  intro files
  induction files with
  | nil => intro db; rfl
  | cons p rest ih =>
    intro db
    obtain ⟨name, content⟩ := p
    by_cases hc : contains migrated name = true
    · simpa [autoMigrateLoop, migrateLoop, hc] using ih db
    · cases hp : parseMigrationSQL content true with
      | err e => simp [autoMigrateLoop, migrateLoop, hc, hp]
      | ok stmts =>
        rcases hA : applyFile exec ins name batch stmts db with ⟨r1, db1, t⟩
        cases r1 with
        | err e => simp [autoMigrateLoop, migrateLoop, hc, hp, hA]
        | ok v =>
          simp [autoMigrateLoop, migrateLoop, hc, hp, hA, ih db1]

/-- C9: `AutoMigrate` produces exactly the same database state, the same
`Exec` trace (schema DDL, lock acquire/release, statements, ledger
inserts) and the same success/error result as `Migrate` on every starting
state and directory; it prints nothing, so the two differ only in console
output. -/
theorem autoMigrate_matches_migrate (exec : String → α → Option α)
    (ins : String → Nat → Bool) (fs : List (String × String)) (db : Db α) :
    (AutoMigrate exec ins fs db).res = (Migrate exec ins fs db).res ∧
    (AutoMigrate exec ins fs db).db = (Migrate exec ins fs db).db ∧
    (AutoMigrate exec ins fs db).trace = (Migrate exec ins fs db).trace ∧
    (AutoMigrate exec ins fs db).console = [] := by
  unfold AutoMigrate Migrate
  rcases hA : acquireLock (EnsureMigrationsTable db).1 with ⟨a1, db2, t2⟩
  cases a1 with
  | err e => simp [hA]
  | ok v =>
    cases hm : getMigrated db2 with
    | err e => simp [hA, hm]
    | ok migrated =>
      cases hb : getNextBatch db2 with
      | err e => simp [hA, hm, hb]
      | ok batch =>
        have hl := autoMigrateLoop_eq_migrateLoop exec ins migrated batch
          (getMigrationFiles fs) db2
        simp [hA, hm, hb, hl]

/-- C1 (code bug): the claim — and spec §4.4 — say the members of the
last batch are rolled back last-applied-first (descending insertion id).
The code orders the batch `ORDER BY id DESC` (`getBatchMigrations`) *and*
then iterates that list from its last element to its first (`for i :=
len(files)-1; i >= 0; i--`): the two reversals cancel, so the DOWN
statements execute first-applied-first.  Concretely, with `a` applied
before `b` (ids 1 and 2) in batch 1, the trace runs `a`'s DOWN and
deletes `a` *before* `b` — the claimed order is `b` first. -/
theorem rollback_processes_batch_in_apply_order :
    Rollback (fun st (l : List String) => some (l ++ [st]))
        [("a", "--UP--\nUA;\n--DOWN--\nDA;"), ("b", "--UP--\nUB;\n--DOWN--\nDB;")]
        (⟨true, [⟨1, "a", 1⟩, ⟨2, "b", 1⟩], 3, true, some ⟨false, false, none⟩, []⟩ :
          Db (List String)) =
      ⟨.ok (),
       ⟨true, [], 3, true, some ⟨false, false, none⟩, ["DA", "DB"]⟩,
       [SqlOp.stmtExec "DA", SqlOp.deleteMigration "a",
        SqlOp.stmtExec "DB", SqlOp.deleteMigration "b"],
       ["Rolled back: a", "Rolled back: b"]⟩ := by
  decide

end Artisan
